import Mathlib

/-!
Verification development for the screenpipe-python-client middleware pipeline.

The repository ships the documentation, configuration templates and the BAML
extraction schema (`SearchParameters`, `ConstructSearch` in the sandbox
notebook) for a conversational middleware: natural-language query extraction,
bounded-size context aggregation, valve (configuration) resolution, and the
per-request pipeline lifecycle.  The Python implementation files themselves are
not part of the checked sources, so the component behaviour is modelled here
from the specification and from the schema/prompt/template text that is in the
sources; the activity-index backend contract is modelled from `docs.md`.
-/

namespace Screenpipe

/-! ## Calendar arithmetic for ISO-8601 UTC timestamps -/

/-- Gregorian leap-year test. -/
def isLeapYear (y : Nat) : Bool :=
  (y % 4 == 0 && y % 100 != 0) || y % 400 == 0

/-- Number of days in a month of a given year. -/
def daysInMonth (y m : Nat) : Nat :=
  if m == 2 then (if isLeapYear y then 29 else 28)
  else if m == 4 || m == 6 || m == 9 || m == 11 then 30
  else 31

/-- Days since the Unix epoch for a civil date (valid for years at or after 1970). -/
def daysFromCivil (y m d : Nat) : Nat :=
  let yAdj := if m ≤ 2 then y - 1 else y
  let era := yAdj / 400
  let yoe := yAdj % 400
  let mp := if 2 < m then m - 3 else m + 9
  let doy := (153 * mp + 2) / 5 + d - 1
  let doe := yoe * 365 + yoe / 4 - yoe / 100 + doy
  era * 146097 + doe - 719468

/-- Civil date (year, month, day) from a count of days since the Unix epoch. -/
def civilFromDays (z : Nat) : Nat × Nat × Nat :=
  let z2 := z + 719468
  let era := z2 / 146097
  let doe := z2 % 146097
  let yoe := (doe - doe / 1460 + doe / 36524 - doe / 146097) / 365
  let y := yoe + era * 400
  let doy := doe - (365 * yoe + yoe / 4 - yoe / 100)
  let mp := (5 * doy + 2) / 153
  let d := doy - (153 * mp + 2) / 5 + 1
  let m := if mp < 10 then mp + 3 else mp - 9
  if m ≤ 2 then (y + 1, m, d) else (y, m, d)

/-- Value of a decimal digit character. -/
def digit (c : Char) : Option Nat :=
  if c.isDigit then some (c.toNat - 48) else none

/-- Two decimal digit characters as a number. -/
def num2 (a b : Char) : Option Nat := do
  pure ((← digit a) * 10 + (← digit b))

/-- Four decimal digit characters as a number. -/
def num4 (a b c d : Char) : Option Nat := do
  pure (((← digit a) * 10 + (← digit b)) * 100 + ((← digit c) * 10 + (← digit d)))

/-- Parse a strict `YYYY-MM-DDTHH:MM:SSZ` ISO-8601 UTC timestamp into seconds
since the Unix epoch; `none` on any malformed input. -/
def parseIso8601 (s : String) : Option Nat :=
  match s.toList with
  | [a, b, c, d, '-', e, f, '-', g, h, 'T', i, j, ':', k, l, ':', m, n, 'Z'] => do
    let y ← num4 a b c d
    let mo ← num2 e f
    let dy ← num2 g h
    let hh ← num2 i j
    let mi ← num2 k l
    let ss ← num2 m n
    if 1970 ≤ y && 1 ≤ mo && mo ≤ 12 && 1 ≤ dy && dy ≤ daysInMonth y mo
        && hh < 24 && mi < 60 && ss < 60 then
      some (daysFromCivil y mo dy * 86400 + hh * 3600 + mi * 60 + ss)
    else none
  | _ => none

/-- Left-pad a number with zeroes to a given width. -/
def padNum (width n : Nat) : String :=
  let s := toString n
  if s.length < width then String.mk (List.replicate (width - s.length) '0') ++ s else s

/-- Render seconds since the Unix epoch as a `YYYY-MM-DDTHH:MM:SSZ` timestamp. -/
def formatIso8601 (t : Nat) : String :=
  let rem := t % 86400
  let ymd := civilFromDays (t / 86400)
  padNum 4 ymd.1 ++ "-" ++ padNum 2 ymd.2.1 ++ "-" ++ padNum 2 ymd.2.2 ++ "T"
    ++ padNum 2 (rem / 3600) ++ ":" ++ padNum 2 (rem % 3600 / 60) ++ ":"
    ++ padNum 2 (rem % 60) ++ "Z"

/-! ## Text utilities used by the modelled extraction step -/

/-- Lower-case an ASCII letter, leaving other characters unchanged. -/
def asciiLower (c : Char) : Char :=
  if 65 ≤ c.toNat && c.toNat ≤ 90 then Char.ofNat (c.toNat + 32) else c

/-- Lower-cased character list of a string. -/
def lowerChars (s : String) : List Char := s.toList.map asciiLower

/-- Whether the first character list is an initial segment of the second. -/
def startsWithChars : List Char → List Char → Bool
  | [], _ => true
  | _ :: _, [] => false
  | a :: as, b :: bs => a == b && startsWithChars as bs

/-- Whether the first character list occurs contiguously inside the second. -/
def containsChars (needle : List Char) : List Char → Bool
  | [] => needle.isEmpty
  | c :: cs => startsWithChars needle (c :: cs) || containsChars needle cs

/-- Split a character list into whitespace-separated tokens. -/
def tokenizeAux (acc : List Char) : List Char → List (List Char)
  | [] => if acc.isEmpty then [] else [acc.reverse]
  | c :: cs =>
    if c == ' ' then
      (if acc.isEmpty then tokenizeAux [] cs else acc.reverse :: tokenizeAux [] cs)
    else tokenizeAux (c :: acc) cs

/-- Keep only the alphanumeric characters of a token (strips punctuation). -/
def stripToken (t : List Char) : List Char := t.filter (fun c => c.isAlphanum)

/-- Parse a non-empty all-digit token as a number. -/
def tokenToNat (t : List Char) : Option Nat :=
  if t.isEmpty || t.any (fun c => !c.isDigit) then none
  else some (t.foldl (fun n c => n * 10 + (c.toNat - 48)) 0)

/-! ## QueryBuilder data model

The `SearchParameters` shape follows the BAML schema in the sandbox notebook:
a content-type enum `OCR | AUDIO | ALL`, an optional time range of ISO
timestamps, an optional positive result limit, an optional non-empty substring
filter and an optional application filter.  Timestamps are held as seconds
since the Unix epoch once validated. -/

/-- Content-type enum of the extraction schema (`OCR | AUDIO | ALL`). -/
inductive ContentType
  | ocr
  | audio
  | all
deriving DecidableEq

/-- Validated closed time range, `from_time ≤ to_time`, in epoch seconds. -/
structure TimeRange where
  from_time : Nat
  to_time : Nat
deriving DecidableEq

/-- Validated search specification consumed by the retrieval stage. -/
structure SearchParameters where
  content_type : ContentType
  time_range : Option TimeRange
  limit : Option Nat
  search_substring : Option String
  application : Option String
deriving DecidableEq

/-- Raw structured-extraction output before validation: the fields exactly as
the extraction model produced them, possibly malformed. -/
structure RawSearchParameters where
  content_type : String
  time_range : Option (String × String)
  limit : Option Int
  search_substring : Option String
  application : Option String
deriving DecidableEq

/-- Parse the content-type enum tag of the extraction schema. -/
def parseContentType (s : String) : Option ContentType :=
  if s == "OCR" then some ContentType.ocr
  else if s == "AUDIO" then some ContentType.audio
  else if s == "ALL" then some ContentType.all
  else none

/-- Default window of the last two days ending at the reference time. -/
def defaultWindow (ref : Nat) : TimeRange := ⟨ref - 172800, ref⟩

/-- Documented default `SearchParameters`: content type ALL, the 2-day window
ending at the reference time, and no limit, substring or application filter. -/
def defaultParams (ref : Nat) : SearchParameters :=
  ⟨ContentType.all, some (defaultWindow ref), none, none, none⟩

/-- Validate the raw time-range field; an absent range takes the default
2-day window, a present range must hold two parseable timestamps in order. -/
def validTimeRange (tr : Option (String × String)) (ref : Nat) : Option TimeRange :=
  match tr with
  | none => some (defaultWindow ref)
  | some (f, t) =>
    match parseIso8601 f, parseIso8601 t with
    | some a, some b => if a ≤ b then some ⟨a, b⟩ else none
    | _, _ => none

/-- Validate the raw limit field: absent is fine, present must be positive. -/
def validLimit : Option Int → Option (Option Nat)
  | none => some none
  | some n => if 0 < n then some (some n.toNat) else none

/-- Validate the raw substring field: absent is fine, present must be non-empty. -/
def validSubstring : Option String → Option (Option String)
  | none => some none
  | some s => if s.isEmpty then none else some (some s)

/-- Mechanical validation of a raw extraction output against the
`SearchParameters` shape; `none` when any field is malformed. -/
def validateRaw (r : RawSearchParameters) (ref : Nat) : Option SearchParameters :=
  match parseContentType r.content_type, validTimeRange r.time_range ref,
      validLimit r.limit, validSubstring r.search_substring with
  | some ct, some tr, some lim, some sub =>
    some ⟨ct, some tr, lim, sub, r.application⟩
  | _, _, _, _ => none

/-! ## Modelled extraction

Modelled from the spec: the repository's QueryBuilder invokes a tool-calling
language model with the `ConstructSearch` prompt (sandbox notebook) to extract
the raw fields; that Python/LLM stage is not among the checked sources, so it
is modelled here as a deterministic keyword extractor following the prompt's
five questions: content type, time range (recency phrases map to the last-2-day
window), an optional result limit, an optional quoted substring, an optional
application. -/

/-- Recency and time phrases the modelled extractor recognises. -/
def timeSignalWords : List String :=
  ["today", "yesterday", "recent", "last", "this week", "this month",
   "hour", "day", "week", "month", "morning", "tonight", "now"]

/-- Whether the query carries a recognizable time signal. -/
def hasTimeSignal (q : String) : Bool :=
  timeSignalWords.any (fun w => containsChars (lowerChars w) (lowerChars q))

/-- Modelled content-type choice: audio mentions win, then screen/OCR, else ALL. -/
def extractContentType (q : String) : String :=
  if containsChars (lowerChars "audio") (lowerChars q) then "AUDIO"
  else if containsChars (lowerChars "ocr") (lowerChars q)
      || containsChars (lowerChars "screen") (lowerChars q) then "OCR"
  else "ALL"

/-- Count-noun tokens that mark a number as a result limit. -/
def limitUnitWords : List String :=
  ["results", "result", "recordings", "recording", "items", "entries"]

/-- Whether a (lower-cased, stripped) token is a result-count noun. -/
def isLimitUnit (t : List Char) : Bool :=
  limitUnitWords.any (fun w => t == w.toList)

/-- Scan token pairs for a number immediately followed by a count noun. -/
def extractLimitAux : List (List Char) → Option Nat
  | [] => none
  | [_] => none
  | t :: u :: rest =>
    match tokenToNat (stripToken t) with
    | some n => if isLimitUnit (stripToken u) then some n else extractLimitAux (u :: rest)
    | none => extractLimitAux (u :: rest)

/-- Modelled limit extraction over the lower-cased query. -/
def extractLimit (q : String) : Option Int :=
  (extractLimitAux (tokenizeAux [] (lowerChars q))).map (fun n => (n : Int))

/-- The single-quote character. -/
def squote : Char := Char.ofNat 39

/-- Modelled substring extraction: the text between the first pair of quotes. -/
def extractSubstring (q : String) : Option String :=
  match q.toList.dropWhile (fun c => c != squote) with
  | [] => none
  | _ :: rest =>
    let inner := rest.takeWhile (fun c => c != squote)
    if inner.length < rest.length then some (String.mk inner) else none

/-- Scan token pairs for the token following the word "app". -/
def extractAppAux : List (List Char) → Option String
  | [] => none
  | [_] => none
  | t :: u :: rest =>
    if (stripToken t).map asciiLower == "app".toList then some (String.mk (stripToken u))
    else extractAppAux (u :: rest)

/-- Modelled application extraction over the original-case query. -/
def extractApplication (q : String) : Option String :=
  extractAppAux (tokenizeAux [] q.toList)

/-- Modelled from the spec: the complete raw extraction produced for a query
at a reference time.  A recognised time signal becomes the last-2-day window
rendered as ISO timestamps, matching `ConstructSearch`'s instruction. -/
def extractRaw (q : String) (ref : Nat) : RawSearchParameters :=
  { content_type := extractContentType q
    time_range :=
      if hasTimeSignal q then some (formatIso8601 (ref - 172800), formatIso8601 ref)
      else none
    limit := extractLimit q
    search_substring := extractSubstring q
    application := extractApplication q }

/-- Modelled from the spec: QueryBuilder's validation-and-fallback step.  A
missing or malformed extraction yields the documented default parameters; it
never propagates an error. -/
def buildFromRaw (raw : Option RawSearchParameters) (ref : Nat) : SearchParameters :=
  match raw with
  | none => defaultParams ref
  | some r => (validateRaw r ref).getD (defaultParams ref)

/-- Modelled from the spec: `QueryBuilder.build` — extraction followed by
validation with fallback. -/
def build (q : String) (ref : Nat) : SearchParameters :=
  buildFromRaw (some (extractRaw q ref)) ref

/-! ## QueryBuilder theorems -/

theorem validateRaw_time_range_of_none (r : RawSearchParameters) (ref : Nat)
    (p : SearchParameters) (h : r.time_range = none) (hv : validateRaw r ref = some p) :
    p.time_range = some (defaultWindow ref) := by
  unfold validateRaw at hv
  rw [h] at hv
  cases hct : parseContentType r.content_type <;> rw [hct] at hv
  · simp [validTimeRange] at hv
  · cases hl : validLimit r.limit <;> rw [hl] at hv
    · simp [validTimeRange] at hv
    · cases hs : validSubstring r.search_substring <;> rw [hs] at hv
      · simp [validTimeRange] at hv
      · simp only [validTimeRange, Option.some.injEq] at hv
        rw [← hv]

theorem buildFromRaw_window_of_none (r : RawSearchParameters) (ref : Nat)
    (h : r.time_range = none) :
    (buildFromRaw (some r) ref).time_range = some (defaultWindow ref) := by
  have hbr : buildFromRaw (some r) ref = (validateRaw r ref).getD (defaultParams ref) := rfl
  rw [hbr]
  cases hv : validateRaw r ref with
  | none => simp [defaultParams]
  | some p =>
    simp only [Option.getD_some]
    exact validateRaw_time_range_of_none r ref p h hv

/-- Claim C3: for every query with no recognizable time signal and every
reference time, `QueryBuilder.build` yields a time range of exactly the closed
interval from two days before the reference time up to the reference time. -/
theorem build_default_window (q : String) (ref : Nat) (h : hasTimeSignal q = false) :
    (build q ref).time_range = some ⟨ref - 2 * 86400, ref⟩ := by
  have hr : (extractRaw q ref).time_range = none := by
    simp [extractRaw, h]
  have hw := buildFromRaw_window_of_none (extractRaw q ref) ref hr
  have e : (2 * 86400 : Nat) = 172800 := by norm_num
  rw [e]
  simpa [build, defaultWindow] using hw

/-- Witness for claim C3 at a concrete time-signal-free query. -/
theorem build_default_window_witness :
    hasTimeSignal "hello there friend" = false
    ∧ (build "hello there friend" 1000000).time_range = some ⟨1000000 - 2 * 86400, 1000000⟩ :=
  ⟨by decide, build_default_window "hello there friend" 1000000 (by decide)⟩

/-- Claim C4: every structured-extraction output that fails validation against
the `SearchParameters` shape makes QueryBuilder return the documented default
parameters (content type ALL, 2-day window ending at the reference time, no
limit, no substring, no application); `buildFromRaw` is total, so no error
propagates past the extraction stage. -/
theorem build_malformed_default (r : RawSearchParameters) (ref : Nat)
    (h : validateRaw r ref = none) :
    buildFromRaw (some r) ref = defaultParams ref
    ∧ defaultParams ref
        = ⟨ContentType.all, some ⟨ref - 2 * 86400, ref⟩, none, none, none⟩ := by
  constructor
  · simp [buildFromRaw, h]
  · have e : (2 * 86400 : Nat) = 172800 := by norm_num
    simp [defaultParams, defaultWindow, e]

/-- Witness for claim C4 at a concrete output with a wrong enum value. -/
theorem build_malformed_default_witness :
    validateRaw ⟨"VIDEO", none, none, none, none⟩ 1732017600 = none
    ∧ (buildFromRaw (some ⟨"VIDEO", none, none, none, none⟩) 1732017600
          = defaultParams 1732017600
        ∧ defaultParams 1732017600
          = ⟨ContentType.all, some ⟨1732017600 - 2 * 86400, 1732017600⟩, none, none, none⟩) :=
  ⟨by decide, build_malformed_default ⟨"VIDEO", none, none, none, none⟩ 1732017600 (by decide)⟩

/-- Claim C5: the scenario query about audio content from the last two days at
reference time 2024-11-19T12:00:00Z yields content type AUDIO, the window from
2024-11-17T12:00:00Z to 2024-11-19T12:00:00Z, and no limit, substring or
application filter. -/
theorem build_audio_scenario :
    build "I want to search for all audio content from the last 2 days." 1732017600
      = ⟨ContentType.audio, some ⟨1731844800, 1732017600⟩, none, none, none⟩
    ∧ parseIso8601 "2024-11-19T12:00:00Z" = some 1732017600
    ∧ parseIso8601 "2024-11-17T12:00:00Z" = some 1731844800 := by
  decide

/-! ## ContextAggregator

Modelled from the spec: the ContextAggregator implementation is not among the
checked sources.  Following §4.2 it orders retrieved items by timestamp
descending, renders each as a compact snippet (type tag, timestamp, source app
if present, payload trimmed to a per-item cap), drops later items whose
rendered snippet is identical to an already-included one, and accumulates
snippets greedily until the next snippet would exceed the budget. -/

/-- Kind tag of a retrieved record (OCR, audio or full-text-search). -/
inductive ItemKind
  | ocr
  | audio
  | fts
deriving DecidableEq

/-- One typed result record returned by the SearchClient. -/
structure SearchResultItem where
  kind : ItemKind
  timestamp : Nat
  appName : Option String
  windowName : Option String
  text : String
  tags : List String
deriving DecidableEq

/-- Printable tag of an item kind. -/
def kindTag : ItemKind → String
  | ItemKind.ocr => "OCR"
  | ItemKind.audio => "Audio"
  | ItemKind.fts => "FTS"

/-- Per-item character cap applied to the text payload of a snippet. -/
def perItemCap : Nat := 300

/-- Trim a string to at most `cap` characters. -/
def trimTo (cap : Nat) (s : String) : String := String.mk (s.toList.take cap)

/-- Compact textual snippet of one item: type tag, timestamp, source app if
present, and the capped text payload. -/
def renderSnippet (it : SearchResultItem) : String :=
  let appStr := match it.appName with
    | some a => " " ++ a
    | none => ""
  "[" ++ kindTag it.kind ++ " " ++ formatIso8601 it.timestamp ++ appStr ++ "] "
    ++ trimTo perItemCap it.text

/-- Timestamp-descending order: `a` precedes `b` when `b`'s timestamp is not
later than `a`'s. -/
def tsDesc (a b : SearchResultItem) : Prop := b.timestamp ≤ a.timestamp

instance : DecidableRel tsDesc := fun a b => Nat.decLe b.timestamp a.timestamp

instance : IsTotal SearchResultItem tsDesc :=
  ⟨fun a b => Nat.le_total b.timestamp a.timestamp⟩

instance : IsTrans SearchResultItem tsDesc :=
  ⟨fun _ _ _ h1 h2 => Nat.le_trans h2 h1⟩

/-- Items sorted by timestamp descending (most recent first). -/
def sortItems (items : List SearchResultItem) : List SearchResultItem :=
  items.insertionSort tsDesc

/-- Drop every item whose rendered snippet equals that of an earlier kept item
or one of the already-seen snippets. -/
def dedupByRender (seen : List String) : List SearchResultItem → List SearchResultItem
  | [] => []
  | it :: rest =>
    if renderSnippet it ∈ seen then dedupByRender seen rest
    else it :: dedupByRender (renderSnippet it :: seen) rest

/-- The deduplicated, timestamp-descending item sequence the aggregator walks. -/
def includedItems (items : List SearchResultItem) : List SearchResultItem :=
  dedupByRender [] (sortItems items)

/-- Total character size of a snippet list. -/
def sumLen : List String → Nat
  | [] => 0
  | s :: rest => s.length + sumLen rest

/-- Greedy accumulation: keep snippets while the running size stays within the
budget, and stop at the first snippet that would exceed it. -/
def takeWithin (budget acc : Nat) : List String → List String
  | [] => []
  | s :: rest =>
    if acc + s.length ≤ budget then s :: takeWithin budget (acc + s.length) rest
    else []

/-- Bounded context block: ordered snippets plus item count, size and a
truncation marker. -/
structure AggregatedContext where
  snippets : List String
  itemCount : Nat
  size : Nat
  truncated : Bool
deriving DecidableEq

/-- Modelled from the spec: `ContextAggregator.aggregate` — sort, render,
deduplicate, then accumulate under the budget. -/
def aggregate (items : List SearchResultItem) (budget : Nat) : AggregatedContext :=
  let snips := (includedItems items).map renderSnippet
  let taken := takeWithin budget 0 snips
  { snippets := taken
    itemCount := taken.length
    size := sumLen taken
    truncated := decide (taken.length < snips.length) }

/-- Marker text used when retrieval produced no matching items. -/
def noActivityMarker : String := "No matching activity found."

/-- Render the aggregated context for injection; an empty snippet list becomes
the explicit no-activity marker rather than an empty string. -/
def AggregatedContext.renderText (ctx : AggregatedContext) : String :=
  if ctx.snippets.isEmpty then noActivityMarker
  else String.intercalate "\n" ctx.snippets

/-! ## ContextAggregator lemmas -/

theorem takeWithin_eq_take (b : Nat) (l : List String) :
    ∀ acc, takeWithin b acc l = l.take (takeWithin b acc l).length := by
  induction l with
  | nil => intro acc; rfl
  | cons s rest ih =>
    intro acc
    unfold takeWithin
    split
    · simp only [List.length_cons, List.take_succ_cons, List.cons.injEq, true_and]
      exact ih _
    · rfl

theorem sumLen_takeWithin_le (b : Nat) (l : List String) :
    ∀ acc, acc ≤ b → acc + sumLen (takeWithin b acc l) ≤ b := by
  induction l with
  | nil => intro acc h; simpa [takeWithin, sumLen] using h
  | cons s rest ih =>
    intro acc h
    unfold takeWithin
    split
    · rename_i hle
      have := ih (acc + s.length) hle
      simpa [sumLen, Nat.add_assoc] using this
    · simpa [sumLen] using h

theorem takeWithin_all (b : Nat) (l : List String) :
    ∀ acc, acc + sumLen l ≤ b → takeWithin b acc l = l := by
  induction l with
  | nil => intro acc _; rfl
  | cons s rest ih =>
    intro acc h
    simp only [sumLen] at h
    have h1 : acc + s.length ≤ b := by omega
    unfold takeWithin
    rw [if_pos h1]
    congr 1
    exact ih (acc + s.length) (by omega)

theorem dedupByRender_sublist :
    ∀ (l : List SearchResultItem) (seen : List String), List.Sublist (dedupByRender seen l) l
  | [], _ => List.Sublist.slnil
  | it :: rest, seen => by
    unfold dedupByRender
    split
    · exact (dedupByRender_sublist rest seen).cons it
    · exact (dedupByRender_sublist rest _).cons₂ it

theorem mem_map_dedupByRender (s : String) :
    ∀ (l : List SearchResultItem) (seen : List String),
      s ∈ (dedupByRender seen l).map renderSnippet
        ↔ (s ∈ l.map renderSnippet ∧ s ∉ seen) := by
  intro l
  induction l with
  | nil => intro seen; simp [dedupByRender]
  | cons it rest ih =>
    intro seen
    unfold dedupByRender
    by_cases hm : renderSnippet it ∈ seen
    · rw [if_pos hm, ih seen]
      simp only [List.map_cons, List.mem_cons]
      constructor
      · exact fun h => ⟨Or.inr h.1, h.2⟩
      · rintro ⟨h1 | h1, h2⟩
        · exact absurd hm (h1 ▸ h2)
        · exact ⟨h1, h2⟩
    · rw [if_neg hm]
      simp only [List.map_cons, List.mem_cons, ih (renderSnippet it :: seen)]
      constructor
      · rintro (h | ⟨h1, h2⟩)
        · exact ⟨Or.inl h, h ▸ hm⟩
        · exact ⟨Or.inr h1, fun hs => h2 (Or.inr hs)⟩
      · rintro ⟨h1 | h1, h2⟩
        · exact Or.inl h1
        · by_cases he : s = renderSnippet it
          · exact Or.inl he
          · exact Or.inr ⟨h1, fun hc => hc.elim he h2⟩

theorem nodup_map_dedupByRender :
    ∀ (l : List SearchResultItem) (seen : List String),
      ((dedupByRender seen l).map renderSnippet).Nodup := by
  intro l
  induction l with
  | nil => intro seen; simp [dedupByRender]
  | cons it rest ih =>
    intro seen
    unfold dedupByRender
    by_cases hm : renderSnippet it ∈ seen
    · rw [if_pos hm]; exact ih seen
    · rw [if_neg hm]
      simp only [List.map_cons, List.nodup_cons]
      refine ⟨fun hmem => ?_, ih _⟩
      have := (mem_map_dedupByRender _ rest (renderSnippet it :: seen)).1 hmem
      exact this.2 (List.mem_cons_self _ _)

theorem sumLen_sublist_le {l1 l2 : List String} (h : List.Sublist l1 l2) :
    sumLen l1 ≤ sumLen l2 := by
  induction h with
  | slnil => exact Nat.le_refl 0
  | cons a h ih => simp only [sumLen]; exact Nat.le_trans ih (Nat.le_add_left _ _)
  | cons₂ a h ih => simp only [sumLen]; exact Nat.add_le_add_left ih _

theorem sumLen_perm {l1 l2 : List String} (h : List.Perm l1 l2) : sumLen l1 = sumLen l2 := by
  induction h with
  | nil => rfl
  | cons x h ih => simp [sumLen, ih]
  | swap x y l => simp only [sumLen]; omega
  | trans h1 h2 ih1 ih2 => omega

/-! ## ContextAggregator theorems -/

/-- Claim C2 (confirmed): when the total rendered size of the item sequence
fits the budget, nothing is truncated, the snippet list is the full
deduplicated render of the items, the included items are ordered by timestamp
descending, and every input item's snippet appears exactly once. -/
theorem aggregate_fits (items : List SearchResultItem) (budget : Nat)
    (h : sumLen (items.map renderSnippet) ≤ budget) :
    (aggregate items budget).truncated = false
    ∧ (aggregate items budget).snippets = (includedItems items).map renderSnippet
    ∧ List.Sorted tsDesc (includedItems items)
    ∧ ∀ it ∈ items, ((aggregate items budget).snippets).count (renderSnippet it) = 1 := by
  have hperm : List.Perm ((sortItems items).map renderSnippet) (items.map renderSnippet) :=
    (List.perm_insertionSort tsDesc items).map renderSnippet
  have hsub : List.Sublist (includedItems items) (sortItems items) := dedupByRender_sublist _ _
  have hsum : sumLen ((includedItems items).map renderSnippet) ≤ budget :=
    calc sumLen ((includedItems items).map renderSnippet)
        ≤ sumLen ((sortItems items).map renderSnippet) := sumLen_sublist_le (hsub.map _)
      _ = sumLen (items.map renderSnippet) := sumLen_perm hperm
      _ ≤ budget := h
  have htake : takeWithin budget 0 ((includedItems items).map renderSnippet)
      = (includedItems items).map renderSnippet :=
    takeWithin_all budget _ 0 (by simpa using hsum)
  have hs : (aggregate items budget).snippets
      = takeWithin budget 0 ((includedItems items).map renderSnippet) := rfl
  have ht : (aggregate items budget).truncated
      = decide ((takeWithin budget 0 ((includedItems items).map renderSnippet)).length
          < ((includedItems items).map renderSnippet).length) := rfl
  refine ⟨?_, ?_, ?_, ?_⟩
  · rw [ht, htake]; simp
  · rw [hs, htake]
  · exact (List.sorted_insertionSort tsDesc items).sublist hsub
  · intro it hit
    rw [hs, htake]
    have hmem : renderSnippet it ∈ (includedItems items).map renderSnippet := by
      refine (mem_map_dedupByRender _ (sortItems items) []).2 ⟨?_, by simp⟩
      exact List.mem_map_of_mem _ (by simpa [sortItems] using hit)
    exact List.count_eq_one_of_mem (nodup_map_dedupByRender _ _) hmem

/-- Item used by the witness of claim C2. -/
def fitItemA : SearchResultItem := ⟨ItemKind.audio, 100, some "Discord", none, "abc", []⟩

/-- Second item used by the witness of claim C2. -/
def fitItemB : SearchResultItem := ⟨ItemKind.ocr, 50, none, none, "xyz", []⟩

/-- Witness for claim C2 at a concrete two-item sequence under a large budget. -/
theorem aggregate_fits_witness :
    sumLen ([fitItemA, fitItemB].map renderSnippet) ≤ 1000
    ∧ ((aggregate [fitItemA, fitItemB] 1000).truncated = false
      ∧ (aggregate [fitItemA, fitItemB] 1000).snippets
          = (includedItems [fitItemA, fitItemB]).map renderSnippet
      ∧ List.Sorted tsDesc (includedItems [fitItemA, fitItemB])
      ∧ ∀ it ∈ [fitItemA, fitItemB],
          ((aggregate [fitItemA, fitItemB] 1000).snippets).count (renderSnippet it) = 1) :=
  ⟨by decide, aggregate_fits [fitItemA, fitItemB] 1000 (by decide)⟩

/-- Item whose duplication refutes claim C1 as stated. -/
def dupItem : SearchResultItem := ⟨ItemKind.ocr, 0, none, none, "hello world", []⟩

/-- Counterexample to claim C1 as stated: two items with identical rendered
snippets have a total rendered size exceeding the budget, yet deduplication
makes the single remaining snippet fit, so `truncated` is `false`, not `true`. -/
theorem aggregate_over_budget_cex :
    (renderSnippet dupItem).length < sumLen ([dupItem, dupItem].map renderSnippet)
    ∧ (aggregate [dupItem, dupItem] ((renderSnippet dupItem).length)).truncated = false := by
  decide

/-- Claim C1 as amended: when the total rendered size of the deduplicated
sorted item sequence exceeds the budget, the aggregator keeps a strict prefix
of that deduplicated snippet sequence (never splitting a snippet), the result
fits within the budget, and `truncated` is set. -/
theorem aggregate_truncates (items : List SearchResultItem) (budget : Nat)
    (h : budget < sumLen ((includedItems items).map renderSnippet)) :
    (aggregate items budget).truncated = true
    ∧ (∃ n, n < ((includedItems items).map renderSnippet).length
        ∧ (aggregate items budget).snippets
            = ((includedItems items).map renderSnippet).take n)
    ∧ (aggregate items budget).size ≤ budget := by
  have hs : (aggregate items budget).snippets
      = takeWithin budget 0 ((includedItems items).map renderSnippet) := rfl
  have hsz : (aggregate items budget).size
      = sumLen (takeWithin budget 0 ((includedItems items).map renderSnippet)) := rfl
  have ht : (aggregate items budget).truncated
      = decide ((takeWithin budget 0 ((includedItems items).map renderSnippet)).length
          < ((includedItems items).map renderSnippet).length) := rfl
  have hbound := sumLen_takeWithin_le budget ((includedItems items).map renderSnippet)
    0 (Nat.zero_le _)
  have hne : takeWithin budget 0 ((includedItems items).map renderSnippet)
      ≠ (includedItems items).map renderSnippet := by
    intro he
    rw [he] at hbound
    omega
  have heq := takeWithin_eq_take budget ((includedItems items).map renderSnippet) 0
  have hle : (takeWithin budget 0 ((includedItems items).map renderSnippet)).length
      ≤ ((includedItems items).map renderSnippet).length := by
    conv_lhs => rw [heq]
    rw [List.length_take]
    exact Nat.min_le_right _ _
  have hlt : (takeWithin budget 0 ((includedItems items).map renderSnippet)).length
      < ((includedItems items).map renderSnippet).length := by
    rcases Nat.lt_or_eq_of_le hle with hl | hl
    · exact hl
    · exact absurd (by rw [heq, hl, List.take_length]) hne
  refine ⟨?_, ⟨(takeWithin budget 0 ((includedItems items).map renderSnippet)).length,
    hlt, ?_⟩, ?_⟩
  · rw [ht]; exact decide_eq_true hlt
  · rw [hs]; exact heq
  · rw [hsz]; omega

/-- Item used by the witness of claim C1. -/
def bigItemA : SearchResultItem := ⟨ItemKind.audio, 200, some "Zoom", none, "meeting notes", []⟩

/-- Second item used by the witness of claim C1. -/
def bigItemB : SearchResultItem := ⟨ItemKind.ocr, 150, none, none, "browser text", []⟩

/-- Witness for the amended claim C1 at a concrete over-budget sequence. -/
theorem aggregate_truncates_witness :
    10 < sumLen ((includedItems [bigItemA, bigItemB]).map renderSnippet)
    ∧ ((aggregate [bigItemA, bigItemB] 10).truncated = true
      ∧ (∃ n, n < ((includedItems [bigItemA, bigItemB]).map renderSnippet).length
          ∧ (aggregate [bigItemA, bigItemB] 10).snippets
              = ((includedItems [bigItemA, bigItemB]).map renderSnippet).take n)
      ∧ (aggregate [bigItemA, bigItemB] 10).size ≤ 10) :=
  ⟨by decide, aggregate_truncates [bigItemA, bigItemB] 10 (by decide)⟩

/-- Claim C8: aggregating an empty item sequence succeeds with a context that
renders as the explicit no-activity marker, never as the empty string. -/
theorem aggregate_empty_marker (budget : Nat) :
    (aggregate [] budget).renderText = noActivityMarker
    ∧ (aggregate [] budget).renderText ≠ ""
    ∧ (aggregate [] budget).snippets = [] := by
  refine ⟨rfl, ?_, rfl⟩
  rw [show (aggregate [] budget).renderText = noActivityMarker from rfl]
  decide

/-! ## ValveStore

Modelled from the spec: the ValveStore implementation is not among the checked
sources; the valve surface (API base URL, API key, screenpipe port, docker
flag, per-stage model identifiers, force-tool-calling flag, get-response flag,
default UTC offset) follows the environment template in the sources, and
resolution follows §4.3: explicit override, then environment, then compiled-in
default, with URL and boolean/numeric validation that fails loudly instead of
defaulting. -/

/-- Raw, unvalidated valve layer: each field optionally supplied as text. -/
structure RawValves where
  llmApiBaseUrl : Option String
  llmApiKey : Option String
  screenpipePort : Option String
  isDocker : Option String
  filterModel : Option String
  responseModel : Option String
  forceToolCalling : Option String
  getResponse : Option String
  defaultUtcOffset : Option String
deriving DecidableEq

/-- Raw valve layer with nothing supplied. -/
def emptyRawValves : RawValves := ⟨none, none, none, none, none, none, none, none, none⟩

/-- Validated configuration record consumed by the pipeline. -/
structure Valves where
  llmApiBaseUrl : String
  llmApiKey : String
  screenpipePort : Nat
  isDocker : Bool
  filterModel : String
  responseModel : String
  forceToolCalling : Bool
  getResponse : Bool
  defaultUtcOffset : Int
deriving DecidableEq

/-- Configuration error surfaced to the operator. -/
inductive ConfigError
  | invalidUrl (value : String)
  | invalidBool (field value : String)
  | invalidNat (field value : String)
  | invalidInt (field value : String)
deriving DecidableEq

/-- Boolean flags parse from the fixed vocabulary true/false/1/0/yes/no,
case-insensitively. -/
def parseBoolToken (s : String) : Option Bool :=
  let t := String.mk (lowerChars s)
  if t == "true" || t == "1" || t == "yes" then some true
  else if t == "false" || t == "0" || t == "no" then some false
  else none

/-- URL-shaped fields must start with an http or https scheme followed by a
non-empty remainder. -/
def validBaseUrl (s : String) : Bool :=
  (startsWithChars "http://".toList s.toList && 7 < s.length)
    || (startsWithChars "https://".toList s.toList && 8 < s.length)

/-- Parse a port: a non-empty all-digit string. -/
def parseNatToken (s : String) : Option Nat := tokenToNat s.toList

/-- Parse a UTC offset: an optionally negated all-digit string. -/
def parseIntToken (s : String) : Option Int :=
  match s.toList with
  | '-' :: rest => (tokenToNat rest).map (fun n => -(n : Int))
  | cs => (tokenToNat cs).map (fun n => (n : Int))

/-- Precedence of one field: explicit override, then environment, then default. -/
def pick (ov env : Option String) (dflt : String) : String := ov.getD (env.getD dflt)

/-- Modelled from the spec: `ValveStore.resolve` — pure layered resolution with
validation; any invalid value produces a configuration error rather than being
silently replaced by a default. -/
def resolve (ov env : RawValves) : Except ConfigError Valves :=
  let url := pick ov.llmApiBaseUrl env.llmApiBaseUrl "http://localhost:11434/v1"
  let dockerStr := pick ov.isDocker env.isDocker "False"
  let ftcStr := pick ov.forceToolCalling env.forceToolCalling "true"
  let grStr := pick ov.getResponse env.getResponse "true"
  let portStr := pick ov.screenpipePort env.screenpipePort "3030"
  let offStr := pick ov.defaultUtcOffset env.defaultUtcOffset "0"
  if validBaseUrl url = false then Except.error (ConfigError.invalidUrl url)
  else
    match parseBoolToken dockerStr with
    | none => Except.error (ConfigError.invalidBool "IS_DOCKER" dockerStr)
    | some docker =>
      match parseBoolToken ftcStr with
      | none => Except.error (ConfigError.invalidBool "FORCE_TOOL_CALLING" ftcStr)
      | some ftc =>
        match parseBoolToken grStr with
        | none => Except.error (ConfigError.invalidBool "GET_RESPONSE" grStr)
        | some gr =>
          match parseNatToken portStr with
          | none => Except.error (ConfigError.invalidNat "SCREENPIPE_PORT" portStr)
          | some port =>
            match parseIntToken offStr with
            | none => Except.error (ConfigError.invalidInt "DEFAULT_UTC_OFFSET" offStr)
            | some off =>
              Except.ok
                { llmApiBaseUrl := url
                  llmApiKey := pick ov.llmApiKey env.llmApiKey "secret-key"
                  screenpipePort := port
                  isDocker := docker
                  filterModel := pick ov.filterModel env.filterModel "qwen2.5-coder"
                  responseModel := pick ov.responseModel env.responseModel "qwen2.5"
                  forceToolCalling := ftc
                  getResponse := gr
                  defaultUtcOffset := off }

/-- Claim C9: an explicit override whose URL-shaped field does not parse as a
valid base URL makes resolution fail with the configuration error naming that
value (so it is surfaced, never silently defaulted), and an explicit override
whose boolean flag lies outside the true/false/1/0/yes/no vocabulary likewise
makes resolution fail with a configuration error. -/
theorem resolve_rejects_invalid (ov env : RawValves) :
    (∀ u, ov.llmApiBaseUrl = some u → validBaseUrl u = false →
      resolve ov env = Except.error (ConfigError.invalidUrl u))
    ∧ (∀ b, ov.isDocker = some b → parseBoolToken b = none →
      ∃ e, resolve ov env = Except.error e)
    ∧ (∀ b, ov.forceToolCalling = some b → parseBoolToken b = none →
      ∃ e, resolve ov env = Except.error e)
    ∧ (∀ b, ov.getResponse = some b → parseBoolToken b = none →
      ∃ e, resolve ov env = Except.error e) := by
  refine ⟨?_, ?_, ?_, ?_⟩
  · intro u hu hv
    unfold resolve
    rw [hu]
    simp only [pick, Option.getD_some, hv, if_pos]
  · intro b hb hv
    unfold resolve
    by_cases hurl : validBaseUrl (pick ov.llmApiBaseUrl env.llmApiBaseUrl
        "http://localhost:11434/v1") = false
    · exact ⟨_, by rw [if_pos hurl]⟩
    · rw [if_neg hurl, hb]
      simp only [pick, Option.getD_some, hv]
      exact ⟨_, rfl⟩
  · intro b hb hv
    unfold resolve
    by_cases hurl : validBaseUrl (pick ov.llmApiBaseUrl env.llmApiBaseUrl
        "http://localhost:11434/v1") = false
    · exact ⟨_, by rw [if_pos hurl]⟩
    · rw [if_neg hurl, hb]
      cases hd : parseBoolToken (pick ov.isDocker env.isDocker "False") with
      | none => exact ⟨_, rfl⟩
      | some docker =>
        simp only [pick, Option.getD_some, hv]
        exact ⟨_, rfl⟩
  · intro b hb hv
    unfold resolve
    by_cases hurl : validBaseUrl (pick ov.llmApiBaseUrl env.llmApiBaseUrl
        "http://localhost:11434/v1") = false
    · exact ⟨_, by rw [if_pos hurl]⟩
    · rw [if_neg hurl, hb]
      cases hd : parseBoolToken (pick ov.isDocker env.isDocker "False") with
      | none => exact ⟨_, rfl⟩
      | some docker =>
        cases hf : parseBoolToken (pick ov.forceToolCalling env.forceToolCalling "true") with
        | none => exact ⟨_, rfl⟩
        | some ftc =>
          simp only [pick, Option.getD_some, hv]
          exact ⟨_, rfl⟩

/-- Witness for claim C9: an explicit override with an invalid base URL is
rejected with the error naming it. -/
theorem resolve_rejects_invalid_witness :
    { emptyRawValves with llmApiBaseUrl := some "not-a-url" }.llmApiBaseUrl
        = some "not-a-url"
    ∧ validBaseUrl "not-a-url" = false
    ∧ resolve { emptyRawValves with llmApiBaseUrl := some "not-a-url" } emptyRawValves
        = Except.error (ConfigError.invalidUrl "not-a-url") :=
  ⟨rfl, by decide,
    (resolve_rejects_invalid { emptyRawValves with llmApiBaseUrl := some "not-a-url" }
      emptyRawValves).1 "not-a-url" rfl (by decide)⟩

/-! ## PipelineController

Modelled from the spec: the PipelineController implementation is not among the
checked sources.  Following §4.4 a request walks
Received → Extracting → Retrieving → Aggregating → Injecting → Completing →
Responding → Done; a retrieval failure degrades to an empty item sequence and
records the failure, while only an unrecoverable configuration error reaches
the terminal Failed state. -/

/-- Lifecycle states of one request. -/
inductive Phase
  | received
  | extracting
  | retrieving
  | aggregating
  | injecting
  | completing
  | responding
  | done
  | failed
deriving DecidableEq

/-- Outcome of the SearchClient call: typed records, or one of the degradable
failure classes (transport error, timeout, 4xx-equivalent rejection). -/
inductive RetrievalOutcome
  | ok (items : List SearchResultItem)
  | transportError (msg : String)
  | timeout
  | badRequest (msg : String)
deriving DecidableEq

/-- Items carried into aggregation: a failed retrieval degrades to none. -/
def RetrievalOutcome.items : RetrievalOutcome → List SearchResultItem
  | RetrievalOutcome.ok items => items
  | _ => []

/-- Failure recorded for observability, when the retrieval failed. -/
def RetrievalOutcome.failure : RetrievalOutcome → Option String
  | RetrievalOutcome.ok _ => none
  | RetrievalOutcome.transportError m => some ("transport error: " ++ m)
  | RetrievalOutcome.timeout => some "retrieval timeout"
  | RetrievalOutcome.badRequest m => some ("bad request: " ++ m)

/-- Conversation roles. -/
inductive Role
  | system
  | user
  | assistant
deriving DecidableEq

/-- One role-tagged conversation message. -/
structure ChatMessage where
  role : Role
  content : String
deriving DecidableEq

/-- The synthetic grounding-context message the pipeline injects. -/
def syntheticContextMessage (ctx : String) : ChatMessage := ⟨Role.system, ctx⟩

/-- Index of the last message carrying the user role, if any. -/
def lastUserIdxAux : List ChatMessage → Option Nat
  | [] => none
  | m :: rest =>
    match lastUserIdxAux rest with
    | some j => some (j + 1)
    | none => if m.role = Role.user then some 0 else none

/-- Index of the user's latest turn in the conversation. -/
def lastUserIdx (msgs : List ChatMessage) : Option Nat := lastUserIdxAux msgs

/-- Modelled from the spec: the context-injection step inserts the aggregated
context as a single synthetic message immediately before the user's latest
turn, never otherwise touching history (appending at the end when no user
turn exists). -/
def injectContext (msgs : List ChatMessage) (ctx : String) : List ChatMessage :=
  match lastUserIdx msgs with
  | some i => msgs.take i ++ syntheticContextMessage ctx :: msgs.drop i
  | none => msgs ++ [syntheticContextMessage ctx]

/-- Result of one pipeline run: the visited states, the final response, the
recorded failures, the aggregated context and the final conversation. -/
structure PipelineResult where
  trace : List Phase
  params : SearchParameters
  response : String
  failures : List String
  context : AggregatedContext
  conversation : List ChatMessage
deriving DecidableEq

/-- Trace of a request that completes every stage. -/
def successTrace : List Phase :=
  [Phase.received, Phase.extracting, Phase.retrieving, Phase.aggregating,
   Phase.injecting, Phase.completing, Phase.responding, Phase.done]

/-- User-visible message for an unrecoverable configuration error. -/
def configErrorMessage : String := "configuration error: invalid valve value"

/-- Modelled from the spec: one pipeline run over a request.  Valve resolution
happens first and is the only unrecoverable failure; the retrieval outcome is
an input standing for the SearchClient call, and the completion backend is an
abstract function from the injected conversation's context. -/
def runPipeline (ov env : RawValves) (query : String) (ref budget : Nat)
    (msgs : List ChatMessage) (retrieval : RetrievalOutcome)
    (complete : String → String) : PipelineResult :=
  match resolve ov env with
  | Except.error _ =>
    { trace := [Phase.received, Phase.failed]
      params := defaultParams ref
      response := configErrorMessage
      failures := [configErrorMessage]
      context := aggregate [] budget
      conversation := msgs }
  | Except.ok _ =>
    let params := build query ref
    let items := retrieval.items
    let ctx := aggregate items budget
    let conv := injectContext msgs ctx.renderText
    { trace := successTrace
      params := params
      response := complete ctx.renderText
      failures := (retrieval.failure.map (fun m => [m])).getD []
      context := ctx
      conversation := conv }

/-- Claim C6: whenever the SearchClient call fails (transport error, timeout
or 4xx-equivalent rejection) and the configuration itself is valid, the
pipeline aggregates over the empty item sequence, records the failure, still
runs the completion and finishes the turn, and never visits the Failed state. -/
theorem pipeline_retrieval_failure (ov env : RawValves) (query : String)
    (ref budget : Nat) (msgs : List ChatMessage) (r : RetrievalOutcome)
    (complete : String → String) (v : Valves)
    (hok : resolve ov env = Except.ok v) (hfail : r.failure.isSome = true) :
    (runPipeline ov env query ref budget msgs r complete).trace = successTrace
    ∧ Phase.failed ∉ (runPipeline ov env query ref budget msgs r complete).trace
    ∧ Phase.aggregating ∈ (runPipeline ov env query ref budget msgs r complete).trace
    ∧ (runPipeline ov env query ref budget msgs r complete).context = aggregate [] budget
    ∧ (runPipeline ov env query ref budget msgs r complete).response
        = complete ((aggregate [] budget).renderText)
    ∧ (runPipeline ov env query ref budget msgs r complete).failures ≠ [] := by
  have hitems : r.items = [] := by
    cases r with
    | ok items => simp [RetrievalOutcome.failure] at hfail
    | transportError m => rfl
    | timeout => rfl
    | badRequest m => rfl
  obtain ⟨m, hm⟩ := Option.isSome_iff_exists.1 hfail
  unfold runPipeline
  rw [hok]
  simp only [hitems, hm, Option.map_some, Option.getD_some]
  refine ⟨by trivial, by decide, by decide, by trivial, by trivial, by simp⟩

/-- Witness for claim C6: a timeout with default valves still completes. -/
theorem pipeline_retrieval_failure_witness :
    resolve emptyRawValves emptyRawValves = Except.ok
      { llmApiBaseUrl := "http://localhost:11434/v1", llmApiKey := "secret-key",
        screenpipePort := 3030, isDocker := false, filterModel := "qwen2.5-coder",
        responseModel := "qwen2.5", forceToolCalling := true, getResponse := true,
        defaultUtcOffset := 0 }
    ∧ RetrievalOutcome.timeout.failure.isSome = true
    ∧ ((runPipeline emptyRawValves emptyRawValves "hi" 0 50 [] RetrievalOutcome.timeout
          (fun s => s)).trace = successTrace
      ∧ Phase.failed ∉ (runPipeline emptyRawValves emptyRawValves "hi" 0 50 []
          RetrievalOutcome.timeout (fun s => s)).trace
      ∧ Phase.aggregating ∈ (runPipeline emptyRawValves emptyRawValves "hi" 0 50 []
          RetrievalOutcome.timeout (fun s => s)).trace
      ∧ (runPipeline emptyRawValves emptyRawValves "hi" 0 50 [] RetrievalOutcome.timeout
          (fun s => s)).context = aggregate [] 50
      ∧ (runPipeline emptyRawValves emptyRawValves "hi" 0 50 [] RetrievalOutcome.timeout
          (fun s => s)).response = (fun s => s) ((aggregate [] 50).renderText)
      ∧ (runPipeline emptyRawValves emptyRawValves "hi" 0 50 [] RetrievalOutcome.timeout
          (fun s => s)).failures ≠ []) :=
  ⟨rfl, rfl,
    pipeline_retrieval_failure emptyRawValves emptyRawValves "hi" 0 50 []
      RetrievalOutcome.timeout (fun s => s)
      { llmApiBaseUrl := "http://localhost:11434/v1", llmApiKey := "secret-key",
        screenpipePort := 3030, isDocker := false, filterModel := "qwen2.5-coder",
        responseModel := "qwen2.5", forceToolCalling := true, getResponse := true,
        defaultUtcOffset := 0 } rfl rfl⟩

/-! ## Context-injection theorems -/

theorem lastUserIdxAux_user (msgs : List ChatMessage) :
    ∀ i, lastUserIdxAux msgs = some i →
      ∃ m, msgs[i]? = some m ∧ m.role = Role.user := by
  induction msgs with
  | nil => intro i h; simp [lastUserIdxAux] at h
  | cons msg rest ih =>
    intro i h
    unfold lastUserIdxAux at h
    cases hr : lastUserIdxAux rest with
    | some j =>
      rw [hr] at h
      simp only [Option.some.injEq] at h
      subst h
      obtain ⟨m, hm, hrole⟩ := ih j hr
      exact ⟨m, by simpa using hm, hrole⟩
    | none =>
      rw [hr] at h
      by_cases hu : msg.role = Role.user
      · rw [if_pos hu] at h
        simp only [Option.some.injEq] at h
        subst h
        exact ⟨msg, by simp, hu⟩
      · rw [if_neg hu] at h
        exact absurd h (by simp)

theorem lastUserIdxAux_none (msgs : List ChatMessage) :
    lastUserIdxAux msgs = none →
      ∀ (j : Nat) (m : ChatMessage), msgs[j]? = some m → m.role ≠ Role.user := by
  induction msgs with
  | nil => intro h j m hm; simp at hm
  | cons msg rest ih =>
    intro h j m hm
    unfold lastUserIdxAux at h
    cases hr : lastUserIdxAux rest with
    | some jr => rw [hr] at h; simp at h
    | none =>
      rw [hr] at h
      by_cases hu : msg.role = Role.user
      · rw [if_pos hu] at h; simp at h
      · rw [if_neg hu] at h
        cases j with
        | zero =>
          simp only [List.getElem?_cons_zero, Option.some.injEq] at hm
          rw [← hm]
          exact hu
        | succ j2 => exact ih hr j2 m (by simpa using hm)

theorem lastUserIdxAux_maximal (msgs : List ChatMessage) :
    ∀ i, lastUserIdxAux msgs = some i →
      ∀ (j : Nat), i < j → ∀ (m : ChatMessage), msgs[j]? = some m → m.role ≠ Role.user := by
  induction msgs with
  | nil => intro i h; simp [lastUserIdxAux] at h
  | cons msg rest ih =>
    intro i h j hij m hm
    unfold lastUserIdxAux at h
    cases hr : lastUserIdxAux rest with
    | some jr =>
      rw [hr] at h
      simp only [Option.some.injEq] at h
      subst h
      cases j with
      | zero => omega
      | succ j2 => exact ih jr hr j2 (by omega) m (by simpa using hm)
    | none =>
      rw [hr] at h
      by_cases hu : msg.role = Role.user
      · rw [if_pos hu] at h
        simp only [Option.some.injEq] at h
        subst h
        cases j with
        | zero => omega
        | succ j2 => exact lastUserIdxAux_none rest hr j2 m (by simpa using hm)
      · rw [if_neg hu] at h; simp at h

theorem insert_take_drop {α : Type} (l : List α) (x : α) (i : Nat) (hi : i ≤ l.length) :
    (l.take i ++ x :: l.drop i).take i = l.take i
    ∧ (l.take i ++ x :: l.drop i).drop (i + 1) = l.drop i
    ∧ (l.take i ++ x :: l.drop i).length = l.length + 1 := by
  have hlen : (l.take i).length = i := by rw [List.length_take]; omega
  refine ⟨?_, ?_, ?_⟩
  · rw [List.take_append_eq_append_take, hlen, Nat.sub_self, List.take_zero,
      List.append_nil, List.take_take, Nat.min_self]
  · rw [List.drop_append_eq_append_drop, hlen,
      List.drop_eq_nil_of_le (by rw [hlen]; omega)]
    have h2 : i + 1 - i = 1 := by omega
    rw [h2]
    simp
  · rw [List.length_append, hlen]
    simp only [List.length_cons, List.length_drop]
    omega

/-- Claim C7: with a user turn present, the injection step inserts exactly one
synthetic context message immediately before the user's latest turn: the
result is the original prefix, the synthetic message, then the user's latest
turn and everything after it; length grows by one (nothing removed), the
history before the insertion point is unchanged, position `i` really is the
latest user turn, and no later message is a user turn. -/
theorem injectContext_inserts (msgs : List ChatMessage) (ctx : String) (i : Nat)
    (h : lastUserIdx msgs = some i) :
    injectContext msgs ctx = msgs.take i ++ syntheticContextMessage ctx :: msgs.drop i
    ∧ (injectContext msgs ctx).length = msgs.length + 1
    ∧ (injectContext msgs ctx).take i = msgs.take i
    ∧ (injectContext msgs ctx).drop (i + 1) = msgs.drop i
    ∧ (∃ m, msgs[i]? = some m ∧ m.role = Role.user)
    ∧ ∀ (j : Nat), i < j → ∀ (m : ChatMessage), msgs[j]? = some m → m.role ≠ Role.user := by
  have heq : injectContext msgs ctx
      = msgs.take i ++ syntheticContextMessage ctx :: msgs.drop i := by
    unfold injectContext
    rw [h]
  obtain ⟨m, hm, hrole⟩ := lastUserIdxAux_user msgs i h
  have hi : i < msgs.length := by
    by_contra hge
    rw [List.getElem?_eq_none (by omega)] at hm
    exact absurd hm (by simp)
  obtain ⟨ht, hd, hl⟩ := insert_take_drop msgs (syntheticContextMessage ctx) i (by omega)
  exact ⟨heq, heq ▸ hl, heq ▸ ht, heq ▸ hd, ⟨m, hm, hrole⟩,
    lastUserIdxAux_maximal msgs i h⟩

/-- Witness for claim C7 at a concrete two-message conversation. -/
theorem injectContext_inserts_witness :
    lastUserIdx [⟨Role.assistant, "hello"⟩, ⟨Role.user, "hi"⟩] = some 1
    ∧ (injectContext [⟨Role.assistant, "hello"⟩, ⟨Role.user, "hi"⟩] "CTX"
          = [⟨Role.assistant, "hello"⟩, ⟨Role.user, "hi"⟩].take 1
            ++ syntheticContextMessage "CTX"
              :: [⟨Role.assistant, "hello"⟩, ⟨Role.user, "hi"⟩].drop 1
      ∧ (injectContext [⟨Role.assistant, "hello"⟩, ⟨Role.user, "hi"⟩] "CTX").length
          = [(⟨Role.assistant, "hello"⟩ : ChatMessage), ⟨Role.user, "hi"⟩].length + 1
      ∧ (injectContext [⟨Role.assistant, "hello"⟩, ⟨Role.user, "hi"⟩] "CTX").take 1
          = [⟨Role.assistant, "hello"⟩, ⟨Role.user, "hi"⟩].take 1
      ∧ (injectContext [⟨Role.assistant, "hello"⟩, ⟨Role.user, "hi"⟩] "CTX").drop (1 + 1)
          = [⟨Role.assistant, "hello"⟩, ⟨Role.user, "hi"⟩].drop 1
      ∧ (∃ m, [(⟨Role.assistant, "hello"⟩ : ChatMessage), ⟨Role.user, "hi"⟩][1]? = some m
          ∧ m.role = Role.user)
      ∧ ∀ (j : Nat), 1 < j → ∀ (m : ChatMessage),
          [(⟨Role.assistant, "hello"⟩ : ChatMessage), ⟨Role.user, "hi"⟩][j]? = some m
          → m.role ≠ Role.user) :=
  ⟨by decide, injectContext_inserts [⟨Role.assistant, "hello"⟩, ⟨Role.user, "hi"⟩]
    "CTX" 1 (by decide)⟩

/-! ## Activity-index backend search contract

Translated from `docs.md` (Search Content endpoint): `GET /search` accepts
optional `q`, `limit` (default 20), `offset` (default 0), `content_type`
(default `all`; one of ocr/audio/fts/all), time bounds, app/window filters and
length bounds, and returns a page of typed records plus pagination data. -/

/-- Content-type filter of the backend search endpoint. -/
inductive BackendContentType
  | ocr
  | audio
  | fts
  | all
deriving DecidableEq

/-- One stored activity record of the backend. -/
structure BackendRecord where
  kind : ItemKind
  timestamp : Nat
  appName : Option String
  windowName : Option String
  text : String
deriving DecidableEq

/-- Request parameters of the Search Content endpoint; every field optional. -/
structure SearchRequest where
  q : Option String
  limit : Option Nat
  offset : Option Nat
  content_type : Option BackendContentType
  start_time : Option Nat
  end_time : Option Nat
  app_name : Option String
  window_name : Option String
  min_length : Option Nat
  max_length : Option Nat
deriving DecidableEq

/-- Search request with every parameter omitted. -/
def emptySearchRequest : SearchRequest :=
  ⟨none, none, none, none, none, none, none, none, none, none⟩

/-- Pagination block of the search response. -/
structure Pagination where
  limit : Nat
  offset : Nat
  total : Nat
deriving DecidableEq

/-- Response of the Search Content endpoint. -/
structure SearchResponse where
  data : List BackendRecord
  pagination : Pagination
deriving DecidableEq

/-- Documented default: `limit` 20 when omitted. -/
def effectiveLimit (r : SearchRequest) : Nat := r.limit.getD 20

/-- Documented default: `offset` 0 when omitted. -/
def effectiveOffset (r : SearchRequest) : Nat := r.offset.getD 0

/-- Documented default: `content_type` `all` when omitted. -/
def effectiveContentType (r : SearchRequest) : BackendContentType :=
  r.content_type.getD BackendContentType.all

/-- Whether a record kind passes the content-type filter. -/
def kindMatches : BackendContentType → ItemKind → Bool
  | BackendContentType.all, _ => true
  | BackendContentType.ocr, k => k == ItemKind.ocr
  | BackendContentType.audio, k => k == ItemKind.audio
  | BackendContentType.fts, k => k == ItemKind.fts

/-- Whether a stored record matches every filter of the request. -/
def recordMatches (r : SearchRequest) (rec : BackendRecord) : Bool :=
  kindMatches (effectiveContentType r) rec.kind
    && (match r.start_time with
        | none => true
        | some t => decide (t ≤ rec.timestamp))
    && (match r.end_time with
        | none => true
        | some t => decide (rec.timestamp ≤ t))
    && (match r.q with
        | none => true
        | some s => containsChars s.toList rec.text.toList)
    && (match r.app_name with
        | none => true
        | some a => rec.appName == some a)
    && (match r.window_name with
        | none => true
        | some w => rec.windowName == some w)
    && (match r.min_length with
        | none => true
        | some n => decide (n ≤ rec.text.length))
    && (match r.max_length with
        | none => true
        | some n => decide (rec.text.length ≤ n))

/-- The Search Content endpoint over a stored record list: filter, then page
by the effective offset and limit, reporting them with the filtered total. -/
def searchContent (db : List BackendRecord) (r : SearchRequest) : SearchResponse :=
  let filtered := db.filter (recordMatches r)
  { data := (filtered.drop (effectiveOffset r)).take (effectiveLimit r)
    pagination :=
      { limit := effectiveLimit r
        offset := effectiveOffset r
        total := filtered.length } }

/-- Claim C10: each omitted search-request field independently takes its
documented default — `limit` 20, `offset` 0, `content_type` `all` — so in
particular a request with `limit` absent, whatever its other fields hold,
returns at most 20 records per page. -/
theorem searchContent_defaults (db : List BackendRecord) (r : SearchRequest) :
    (r.limit = none →
      (searchContent db r).pagination.limit = 20
      ∧ (searchContent db r).data.length ≤ 20)
    ∧ (r.offset = none → (searchContent db r).pagination.offset = 0)
    ∧ (r.content_type = none → effectiveContentType r = BackendContentType.all) := by
  refine ⟨fun hl => ?_, fun ho => ?_, fun hc => ?_⟩
  · have hlim : effectiveLimit r = 20 := by simp [effectiveLimit, hl]
    constructor
    · simpa [searchContent] using hlim
    · have hdata : (searchContent db r).data.length
          = (((db.filter (recordMatches r)).drop (effectiveOffset r)).take
              (effectiveLimit r)).length := rfl
      rw [hdata, List.length_take, hlim]
      exact Nat.min_le_left _ _
  · have hoff : effectiveOffset r = 0 := by simp [effectiveOffset, ho]
    simpa [searchContent] using hoff
  · simp [effectiveContentType, hc]

/-- Record used by the witness of claim C10. -/
def wRecord : BackendRecord := ⟨ItemKind.ocr, 7, some "Safari", none, "page text"⟩

/-- Request with `limit` omitted while `offset` and `content_type` are
explicitly supplied, used by the witness of claim C10. -/
def mixedSearchRequest : SearchRequest :=
  ⟨none, none, some 3, some BackendContentType.audio, none, none, none, none, none, none⟩

/-- Witness for claim C10 over a 25-record store: a request with `limit`
absent but `offset` and `content_type` supplied still pages at most 20
records, and a request with everything omitted gets offset 0 and content
type `all`. -/
theorem searchContent_defaults_witness :
    mixedSearchRequest.limit = none
    ∧ ((searchContent (List.replicate 25 wRecord) mixedSearchRequest).pagination.limit = 20
      ∧ (searchContent (List.replicate 25 wRecord) mixedSearchRequest).data.length ≤ 20)
    ∧ emptySearchRequest.offset = none
    ∧ (searchContent (List.replicate 25 wRecord) emptySearchRequest).pagination.offset = 0
    ∧ emptySearchRequest.content_type = none
    ∧ effectiveContentType emptySearchRequest = BackendContentType.all :=
  ⟨rfl, (searchContent_defaults (List.replicate 25 wRecord) mixedSearchRequest).1 rfl,
   rfl, (searchContent_defaults (List.replicate 25 wRecord) emptySearchRequest).2.1 rfl,
   rfl, (searchContent_defaults (List.replicate 25 wRecord) emptySearchRequest).2.2 rfl⟩

end Screenpipe
